import Mathlib

/-!
Verification of the RAG chatbot backend (mohdjami/RAG-chatbot).

Each service function of the repository is shallowly embedded as an
executable Lean definition; external collaborators (the embedding
provider, the vector index, the LLM, the database driver) are passed in
as explicit oracle arguments or result values, so the control flow of
the Python source is modelled faithfully while provider behaviour stays
abstract.  Machine floats never enter any decided property: similarity
scores are modelled as rationals, and embedding vectors stay opaque or
rational.  The file is organised as: all definitions first, then all
theorems.
-/

namespace RAGChat

/-! ## Definitions -/

/-! ### Conversation history (app/models/chat.py, app/services/chat_service.py) -/

/-- A persisted chat message row: the authorship flag `is_user` and the
text content (`MessageModel` in app/models/chat.py).  Rows of one
conversation are kept in insertion = chronological order. -/
structure Message where
  is_user : Bool
  content : String
  deriving Repr, DecidableEq

/-- A history entry as assembled by `_get_conversation_history`:
a role string and the message content. -/
structure HistoryEntry where
  role : String
  content : String
  deriving Repr, DecidableEq

/-- `MessageModel.get_conversation_messages`: `SELECT ... ORDER BY
created_at DESC LIMIT limit` over the conversation's rows.  On rows
inserted in chronological order this returns the newest-first prefix of
the reversed row list. -/
def get_conversation_messages (msgs : List Message) (limit : Nat) : List Message :=
  msgs.reverse.take limit

/-- The role tagging performed inside `_get_conversation_history`:
`"role": "user" if msg.is_user else "assistant"`. -/
def historyEntry (m : Message) : HistoryEntry :=
  { role := if m.is_user then "user" else "assistant", content := m.content }

/-- `ChatService._get_conversation_history`: returns `[]` when the
conversation does not exist, otherwise maps the role tagging over the
result of `get_conversation_messages` with limit 10.  The query result
is used as-is: the code performs no re-ordering. -/
def get_conversation_history (conversationExists : Bool) (msgs : List Message) :
    List HistoryEntry :=
  if conversationExists then (get_conversation_messages msgs 10).map historyEntry
  else []

/-- The spec's wording of `history` ("re-ordered into chronological
(oldest-first) order"): the most recent 10 messages put back into
oldest-first order before role tagging.  Kept separate from the code
model so the two can be compared. -/
def historyOldestFirst (msgs : List Message) : List HistoryEntry :=
  ((msgs.reverse.take 10).reverse).map historyEntry

/-! ### Persistence (`_save_conversation` in app/services/chat_service.py)

SQLAlchemy session semantics are embedded explicitly: a session holds
the committed database state plus the uncommitted rows added since the
last commit; `commit` makes the uncommitted rows durable, `rollback`
discards them and leaves the committed state untouched. -/

/-- A message row as persisted by `_save_conversation`. -/
structure DbMessage where
  conversation_id : String
  content : String
  is_user : Bool
  deriving Repr, DecidableEq

/-- The committed database state: conversation ids and message rows in
insertion order. -/
structure DbState where
  conversations : List String
  messages : List DbMessage
  deriving Repr, DecidableEq

/-- An open database session: committed state plus rows added in the
current transaction but not yet committed. -/
structure Session where
  committed : DbState
  newConvs : List String
  newMsgs : List DbMessage
  deriving Repr, DecidableEq

/-- `db_session.add(conversation)`: register an uncommitted conversation. -/
def Session.addConv (s : Session) (id : String) : Session :=
  { s with newConvs := s.newConvs ++ [id] }

/-- `db_session.add(message)`: register an uncommitted message row. -/
def Session.addMsg (s : Session) (m : DbMessage) : Session :=
  { s with newMsgs := s.newMsgs ++ [m] }

/-- `db_session.commit()`: all uncommitted rows become durable together. -/
def Session.commit (s : Session) : Session :=
  { committed := { conversations := s.committed.conversations ++ s.newConvs,
                   messages := s.committed.messages ++ s.newMsgs },
    newConvs := [], newMsgs := [] }

/-- `db_session.rollback()`: the uncommitted rows are discarded, the
committed state is untouched. -/
def Session.rollback (s : Session) : Session :=
  { s with newConvs := [], newMsgs := [] }

/-- Which database operation of `_save_conversation` raises, if any:
the `flush` that materialises a new conversation, or the final
`commit`.  `ok` means the save succeeds. -/
inductive SaveFailure where
  | ok
  | atFlush
  | atCommit
  deriving Repr, DecidableEq

/-- `ChatService._save_conversation`: when no conversation id was
supplied, a new conversation is created and flushed to obtain its fresh
id; then the user message and the assistant message are added and the
whole turn is committed.  Any exception is caught: the session is
rolled back and the exception is suppressed (the function returns
normally).  The returned flag records whether a failure occurred (and
was rolled back). -/
def save_conversation (message response : String) (conversation_id : Option String)
    (freshId : String) (fail : SaveFailure) (s : Session) : Session × Bool :=
  match conversation_id with
  | none =>
      let s1 := s.addConv freshId
      if fail = SaveFailure.atFlush then (s1.rollback, true)
      else
        let s2 := (s1.addMsg ⟨freshId, message, true⟩).addMsg ⟨freshId, response, false⟩
        if fail = SaveFailure.atCommit then (s2.rollback, true) else (s2.commit, false)
  | some cid =>
      let s2 := (s.addMsg ⟨cid, message, true⟩).addMsg ⟨cid, response, false⟩
      if fail = SaveFailure.atCommit then (s2.rollback, true) else (s2.commit, false)

/-! ### The chat turn (`process_message` in app/services/chat_service.py) -/

/-- A retrieved similar document as returned by
`VectorStoreService.query_similar`: the chunk text and the similarity
score (modelled as a rational). -/
structure ContextDoc where
  text : String
  score : Rat
  deriving Repr, DecidableEq

/-- The value returned by `LLMService.generate_response`: the response
text and the threshold-filtered source list. -/
structure GenOut where
  response : String
  sources : List ContextDoc
  deriving Repr, DecidableEq

/-- Outcomes of the external calls made during one chat turn.  Each
field is the result the corresponding collaborator would produce if
called; `generateResult` is a function of the history actually passed
to the LLM. -/
structure PipelineEnv where
  rateLimitOk : Bool
  embedResult : Except String (List (List Rat))
  searchResult : Except String (List ContextDoc)
  historyFetch : Except String (List HistoryEntry)
  generateResult : List HistoryEntry → Except String GenOut
  followupResult : Except String (List String)
  saveFail : SaveFailure
  freshConvId : String

/-- The payload assembled by `process_message`. -/
structure ChatPayload where
  response : String
  sources : List ContextDoc
  followup_questions : List String
  conversation_id : Option String
  metadata : Option String
  deriving Repr, DecidableEq

/-- The wrapping applied by the outer `except` of `process_message`:
every exception escaping the turn is re-raised as a single ChatError
with this prefix. -/
def wrapErr (e : String) : String := "Failed to process message: " ++ e

/-- The rate-limit rejection message raised inside the `try` block. -/
def rateLimitMsg : String := "Rate limit exceeded. Please wait before sending more messages."

/-- The history actually passed to the LLM by `process_message`: it is
loaded only when a conversation id and a db session are present, and a
failing fetch is caught inside `_get_conversation_history` (lines
143-145) and yields `[]`. -/
def histUsed (conversation_id : Option String) (hasDb : Bool) (env : PipelineEnv) :
    List HistoryEntry :=
  if conversation_id.isSome && hasDb then
    match env.historyFetch with
    | Except.error _ => []
    | Except.ok h => h
  else []

/-- `ChatService.process_message`: rate-limit check, query embedding,
similarity search, history load (`histUsed`), LLM generation, follow-up
generation, then best-effort persistence, and finally the payload whose
`conversation_id` is the *input* conversation id.  Every exception
inside the `try` block surfaces as one wrapped error. -/
def process_message (message : String) (conversation_id : Option String)
    (metadata : Option String) (hasDb : Bool) (env : PipelineEnv) (s : Session) :
    Except String (ChatPayload × Session) :=
  if env.rateLimitOk = false then Except.error (wrapErr rateLimitMsg)
  else
    match env.embedResult with
    | Except.error e => Except.error (wrapErr e)
    | Except.ok _ =>
      match env.searchResult with
      | Except.error e => Except.error (wrapErr e)
      | Except.ok _ =>
        match env.generateResult (histUsed conversation_id hasDb env) with
        | Except.error e => Except.error (wrapErr e)
        | Except.ok gen =>
          match env.followupResult with
          | Except.error e => Except.error (wrapErr e)
          | Except.ok fq =>
            let s2 := if hasDb then
                (save_conversation message gen.response conversation_id
                  env.freshConvId env.saveFail s).1
              else s
            Except.ok ({ response := gen.response, sources := gen.sources,
                         followup_questions := fq, conversation_id := conversation_id,
                         metadata := metadata }, s2)

/-- A session holding an empty database and no uncommitted rows. -/
def emptySession : Session := ⟨⟨[], []⟩, [], []⟩

/-- An environment in which every collaborator succeeds and the
database assigns the fresh conversation id "c-new". -/
def envAllOk : PipelineEnv :=
  { rateLimitOk := true
    embedResult := Except.ok [[]]
    searchResult := Except.ok []
    historyFetch := Except.ok []
    generateResult := fun _ => Except.ok ⟨"answer", []⟩
    followupResult := Except.ok []
    saveFail := SaveFailure.ok
    freshConvId := "c-new" }

/-- The all-ok environment except that the history fetch from the
database raises. -/
def envHistFails : PipelineEnv :=
  { envAllOk with historyFetch := Except.error "db down" }

/-! ### Embedding client (`generate_embeddings` in
app/services/embedding_service.py) -/

/-- The slicing recursion underlying the batching loops, with explicit
fuel (any bound on the number of slices, e.g. the list length) so that
the definition is structurally recursive and kernel-evaluable. -/
def chunksOfGo {α : Type} (n : Nat) : Nat → List α → List (List α)
  | 0, _ => []
  | _, [] => []
  | fuel + 1, a :: rest => (a :: rest).take n :: chunksOfGo n fuel (rest.drop (n - 1))

/-- The batching loop `for i in range(0, len(texts), batch_size)` with
slices `texts[i:i + batch_size]`: splits a list into consecutive slices
of at most `n` elements.  The source uses `n = 20` for embeddings and
`n = 100` for vector upserts. -/
def chunksOf {α : Type} (n : Nat) (l : List α) : List (List α) :=
  chunksOfGo n l.length l

/-- `EmbeddingService._process_batch`: one provider call; a provider
exception is re-raised as a DocumentProcessingError. -/
def process_batch {V : Type} (encode : List String → Except String (List V))
    (texts : List String) : Except String (List V) :=
  match encode texts with
  | Except.error e => Except.error ("Batch embedding processing failed: " ++ e)
  | Except.ok vs => Except.ok vs

/-- The loop body of `generate_embeddings`: embed each batch in order,
extending the accumulated result; the first failing batch aborts. -/
def embedBatches {V : Type} (encode : List String → Except String (List V)) :
    List (List String) → Except String (List V)
  | [] => Except.ok []
  | b :: bs =>
    match process_batch encode b with
    | Except.error e => Except.error e
    | Except.ok vs =>
      match embedBatches encode bs with
      | Except.error e => Except.error e
      | Except.ok rest => Except.ok (vs ++ rest)

/-- `EmbeddingService.generate_embeddings`: batch the input into groups
of at most 20, embed every batch in order, concatenate; any exception
is re-raised wrapped, so a failed batch aborts the whole call with no
partial result. -/
def generate_embeddings {V : Type} (encode : List String → Except String (List V))
    (texts : List String) : Except String (List V) :=
  match embedBatches encode (chunksOf 20 texts) with
  | Except.error e => Except.error ("Embedding generation failed: " ++ e)
  | Except.ok vs => Except.ok vs

/-- A trivially well-behaved provider (used to instantiate witnesses):
returns one zero "vector" per input text. -/
def constEncode : List String → Except String (List Nat) :=
  fun b => Except.ok (b.map (fun _ => 0))

/-! ### Chunking pipeline (`process_document` in
app/services/document_processor.py) -/

/-- A chunk emitted by `process_document`: the text plus the metadata
attached in the enumeration loop (source name, file type, zero-based
chunk index, total chunk count). -/
structure ProcessedChunk where
  text : String
  source : String
  file_type : String
  chunk_index : Nat
  total_chunks : Nat
  deriving Repr, DecidableEq

/-- The statically supported extensions (`SUPPORTED_FORMATS`). -/
def SUPPORTED_FORMATS : List String := [".pdf", ".txt", ".docx"]

/-- The metadata-attachment loop of `process_document`:
`for i, chunk in enumerate(chunks)` produces one output per chunk with
`chunk_index = i` and `total_chunks = len(chunks)`. -/
def attach_metadata (sourceName suffix : String) (chunks : List String) :
    List ProcessedChunk :=
  chunks.enum.map (fun p =>
    { text := p.2, source := sourceName, file_type := suffix,
      chunk_index := p.1, total_chunks := chunks.length })

/-- `DocumentProcessor.process_document`: existence check, extension
check against the supported set, load + split (external loader and
recursive splitter, passed as an oracle result), then metadata
attachment; every failure is re-raised as a DocumentProcessingError. -/
def process_document (fileExists : Bool) (sourceName suffix : String)
    (loadAndSplit : Except String (List String)) :
    Except String (List ProcessedChunk) :=
  if fileExists = false then
    Except.error "Document processing failed: File not found"
  else if (SUPPORTED_FORMATS.contains suffix) = false then
    Except.error "Document processing failed: Unsupported file format"
  else
    match loadAndSplit with
    | Except.error e => Except.error ("Document processing failed: " ++ e)
    | Except.ok chunks => Except.ok (attach_metadata sourceName suffix chunks)

/-! ### Response generator (`generate_response` in
app/services/llm_service.py) -/

/-- A prompt message sent to the hosted LLM (SystemMessage or
HumanMessage in the source). -/
inductive PromptMsg where
  | system (content : String)
  | human (content : String)
  deriving Repr, DecidableEq

/-- The fixed system instruction of `generate_response`. -/
def system_prompt : String :=
  "You are a helpful AI assistant. Answer the user\x27s question based on the provided context.\nIf the context doesn\x27t contain enough information to answer the question, say so.\nAlways maintain a professional and helpful tone. If you use information from the context, cite it naturally in your response.\nBase your response primarily on the provided context rather than your general knowledge."

/-- The numbered context block: `"\n\n".join(f"Context {i+1}:\n{text}")`
over ALL retrieved documents, regardless of score. -/
def context_str (context : List ContextDoc) : String :=
  String.intercalate "\n\n"
    (context.enum.map (fun p => "Context " ++ toString (p.1 + 1) ++ ":\n" ++ p.2.text))

/-- The previous-conversation block: the last 5 history entries, each
rendered `"role: content"`, joined by newlines. -/
def history_str (history : List HistoryEntry) : String :=
  String.intercalate "\n"
    ((history.drop (history.length - 5)).map (fun m => m.role ++ ": " ++ m.content))

/-- The prompt assembly of `generate_response`: fixed system prompt, an
optional previous-conversation block, the context block over the whole
retrieved list, then the user query. -/
def build_messages (query : String) (context : List ContextDoc)
    (history : List HistoryEntry) : List PromptMsg :=
  let hstr := if history.isEmpty then "" else history_str history
  [PromptMsg.system system_prompt] ++
  (if hstr ≠ "" then [PromptMsg.system ("Previous conversation:\n" ++ hstr)] else []) ++
  [PromptMsg.system ("Context for the current question:\n" ++ context_str context),
   PromptMsg.human query]

/-- `LLMService.generate_response`: builds the prompt, invokes the LLM
once (oracle `llm`), and extracts as sources exactly the retrieved
documents whose score exceeds the fixed 0.7 threshold, in retrieval
order.  Returns the messages sent together with the result. -/
def generate_response (llm : List PromptMsg → String) (query : String)
    (context : List ContextDoc) (history : List HistoryEntry) :
    List PromptMsg × GenOut :=
  let msgs := build_messages query context history
  (msgs, { response := llm msgs,
           sources := context.filter (fun d => (7 : Rat)/10 < d.score) })

/-! ### Vector index client (`store_embeddings` in
app/services/vector_store.py)

`store_embeddings` is decorated with
`@retry(stop=stop_after_attempt(3), wait=wait_exponential(multiplier=1,
min=4, max=10))`.  Tenacity without `reraise=True` raises a RetryError
wrapping the final attempt once the stop condition is reached, which
the error type below distinguishes from the VectorStoreError raised by
a single attempt. -/

/-- An input to `store_embeddings`: a chunk with its embedding. -/
structure ChunkIn where
  text : String
  embedding : List Rat
  deriving Repr, DecidableEq

/-- A vector record as upserted into the index: generated id, values,
and the chunk text carried in the metadata. -/
structure VecRec where
  id : String
  values : List Rat
  text : String
  deriving Repr, DecidableEq

/-- The errors observable from `store_embeddings`: the
VectorStoreError raised inside one attempt, or tenacity's RetryError
wrapping the last attempt's error after the attempt limit. -/
inductive StoreErr where
  | vectorStoreError (msg : String)
  | retryExhausted (last : StoreErr)
  deriving Repr, DecidableEq

/-- The vector-building loop of one attempt: a fresh id per chunk
(drawn from the uuid stream by position). -/
def buildVecs (uuids : Nat → String) (chunks : List ChunkIn) : List VecRec :=
  chunks.enum.map (fun p =>
    { id := uuids p.1, values := p.2.embedding, text := p.2.text })

/-- The batch-upsert loop of one attempt: submit each batch in order,
aborting on the first provider error. -/
def upsertAll (upsertBatch : List VecRec → Except String Unit) :
    List (List VecRec) → Except String Unit
  | [] => Except.ok ()
  | b :: bs =>
    match upsertBatch b with
    | Except.error e => Except.error e
    | Except.ok _ => upsertAll upsertBatch bs

/-- One attempt of `store_embeddings` (the decorated function body):
build the vectors with fresh ids, upsert them in batches of at most
100, and return the id list; any exception is re-raised as a
VectorStoreError. -/
def attempt_store (uuids : Nat → String)
    (upsertBatch : List VecRec → Except String Unit)
    (chunks : List ChunkIn) : Except StoreErr (List String) :=
  let vecs := buildVecs uuids chunks
  match upsertAll upsertBatch (chunksOf 100 vecs) with
  | Except.error e =>
    Except.error (StoreErr.vectorStoreError ("Vector storage failed: " ++ e))
  | Except.ok _ => Except.ok (vecs.map VecRec.id)

/-- Tenacity's retry loop: run attempt `attempt`; on success stop, on
failure retry while fuel remains, otherwise raise a RetryError wrapping
the last attempt's error.  Returns the result together with the number
of attempts made. -/
def retryRun {α : Type} (f : Nat → Except StoreErr α) :
    Nat → Nat → (Except StoreErr α) × Nat
  | 0, attempt =>
    match f attempt with
    | Except.ok x => (Except.ok x, attempt)
    | Except.error e => (Except.error (StoreErr.retryExhausted e), attempt)
  | fuel + 1, attempt =>
    match f attempt with
    | Except.ok x => (Except.ok x, attempt)
    | Except.error _ => retryRun f fuel (attempt + 1)

/-- `VectorStoreService.store_embeddings` with its retry decorator:
at most 3 attempts (initial attempt plus 2 retries).  The uuid stream
and the provider behaviour may differ per attempt. -/
def store_embeddings (uuidsAt : Nat → Nat → String)
    (upsertAt : Nat → List VecRec → Except String Unit)
    (chunks : List ChunkIn) : (Except StoreErr (List String)) × Nat :=
  retryRun (fun a => attempt_store (uuidsAt a) (upsertAt a) chunks) 2 1

/-- `wait_exponential(multiplier, min, max)`: the delay before retry
`k` is the clamped exponential `multiplier * 2 ^ k`. -/
def wait_exponential (multiplier lo hi k : Nat) : Nat :=
  min hi (max lo (multiplier * 2 ^ k))

/-! ### Rate limiter (`_check_rate_limit` in
app/services/chat_service.py)

Timestamps are absolute times in whole seconds.  The source tests
`(now - ts).seconds < window`; Python's `timedelta.seconds` is the
seconds *component* of the duration — the total seconds modulo 86400
(one day) — not the total duration. -/

/-- The pruning comprehension
`[ts for ts in window if (now - ts).seconds < window]`. -/
def pruneTimestamps (now window : Nat) (ts : List Nat) : List Nat :=
  ts.filter (fun t => (now - t) % 86400 < window)

/-- `ChatService._check_rate_limit` for one client (defaults: limit 10,
window 60): prune, reject when the pruned list already holds `limit`
entries (the stored list stays the pruned list, no timestamp is
recorded), otherwise record the current time and accept.  Returns the
decision and the client's stored timestamp list. -/
def check_rate_limit (ts : List Nat) (now : Nat) (limit window : Nat) :
    Bool × List Nat :=
  let kept := pruneTimestamps now window ts
  if limit ≤ kept.length then (false, kept)
  else (true, kept ++ [now])

/-- A sequence of rate-limit checks for one client starting from no
recorded timestamps: the stored list after serving every request time
in order. -/
def runRateLimit (limit window : Nat) (reqs : List Nat) : List Nat :=
  reqs.foldl (fun ts now => (check_rate_limit ts now limit window).2) []

end RAGChat

namespace RAGChat

/-! ## Theorems -/

/-- C1, counterexample.  The claim says `history` re-orders the most
recent messages oldest-first.  For the chronologically inserted
messages [user:"hi", assistant:"hello"] the code returns
[assistant:"hello", user:"hi"] (newest first), not the oldest-first
order demanded by the spec. -/
theorem C1_counterexample :
    get_conversation_history true [⟨true, "hi"⟩, ⟨false, "hello"⟩] =
      [⟨"assistant", "hello"⟩, ⟨"user", "hi"⟩] ∧
    get_conversation_history true [⟨true, "hi"⟩, ⟨false, "hello"⟩] ≠
      historyOldestFirst [⟨true, "hi"⟩, ⟨false, "hello"⟩] := by
  constructor
  · rfl
  · decide

/-- C1, amended.  `history(conversationId, 10)` returns the most recent
(at most) 10 messages of the conversation — the chronological suffix
`msgs.drop (msgs.length - 10)` — in reverse-chronological (newest-first)
order, each tagged role="user" or role="assistant" by `historyEntry`
according to the authorship flag; the code performs no re-ordering into
oldest-first order. -/
theorem C1_amended (msgs : List Message) :
    get_conversation_history true msgs =
      ((msgs.drop (msgs.length - 10)).reverse).map historyEntry := by
  unfold get_conversation_history get_conversation_messages
  rw [if_pos rfl]
  congr 1
  rw [List.reverse_drop, List.take_eq_take, List.length_reverse]
  omega

/-- C4: `_save_conversation` is transactional.  If any part of the save
fails (the flag is true), the session was rolled back and the committed
state is exactly what it was before: neither message nor a newly
created conversation is persisted.  On success both messages are
committed together, the user message immediately before the assistant
message, and a new conversation id is committed exactly when no id was
supplied. -/
theorem C4_confirmed (message response : String) (cid : Option String)
    (freshId : String) (fail : SaveFailure) (s : Session)
    (hc : s.newConvs = []) (hm : s.newMsgs = []) :
    ((save_conversation message response cid freshId fail s).2 = true →
      (save_conversation message response cid freshId fail s).1.committed = s.committed) ∧
    ((save_conversation message response cid freshId fail s).2 = false →
      (save_conversation message response cid freshId fail s).1.committed.messages =
        s.committed.messages ++
          [⟨cid.getD freshId, message, true⟩, ⟨cid.getD freshId, response, false⟩] ∧
      (save_conversation message response cid freshId fail s).1.committed.conversations =
        s.committed.conversations ++ (if cid.isNone then [freshId] else [])) := by
  cases cid <;> cases fail <;>
    simp [save_conversation, Session.addConv, Session.addMsg, Session.commit,
      Session.rollback, hc, hm]

/-- C4, witness: a successful save of the turn ("hi", "hello") into a
fresh conversation "c1" on an empty database commits exactly the user
message followed by the assistant message and the new conversation. -/
theorem C4_witness :
    ((save_conversation "hi" "hello" none "c1" SaveFailure.ok emptySession).2 = true →
      (save_conversation "hi" "hello" none "c1" SaveFailure.ok emptySession).1.committed =
        emptySession.committed) ∧
    ((save_conversation "hi" "hello" none "c1" SaveFailure.ok emptySession).2 = false →
      (save_conversation "hi" "hello" none "c1" SaveFailure.ok emptySession).1.committed.messages =
        emptySession.committed.messages ++
          [⟨(none : Option String).getD "c1", "hi", true⟩,
           ⟨(none : Option String).getD "c1", "hello", false⟩] ∧
      (save_conversation "hi" "hello" none "c1" SaveFailure.ok
          emptySession).1.committed.conversations =
        emptySession.committed.conversations ++
          (if (none : Option String).isNone then ["c1"] else [])) :=
  C4_confirmed "hi" "hello" none "c1" SaveFailure.ok emptySession rfl rfl

/-- Helper: `process_message` succeeds exactly when the rate limit
passes and the embedding, search, generation and follow-up calls all
succeed; the history fetch and the save step do not appear in the
condition. -/
theorem process_message_ok_iff (message : String) (cid md : Option String)
    (hasDb : Bool) (env : PipelineEnv) (s : Session) :
    (∃ r, process_message message cid md hasDb env s = Except.ok r) ↔
      (env.rateLimitOk = true ∧ env.embedResult.isOk = true ∧
       env.searchResult.isOk = true ∧
       (env.generateResult (histUsed cid hasDb env)).isOk = true ∧
       env.followupResult.isOk = true) := by
  cases hrl : env.rateLimitOk <;>
    rcases he : env.embedResult with e | v <;>
      rcases hs2 : env.searchResult with e2 | ctx <;>
        rcases hg : env.generateResult (histUsed cid hasDb env) with e3 | gen <;>
          rcases hf2 : env.followupResult with e4 | fq <;>
            simp [process_message, hrl, he, hs2, hg, hf2, Except.isOk, Except.toBool]

/-- Helper: every error produced by `process_message` is the single
wrapped ChatError of the outer `except` block. -/
theorem process_message_err_wrapped (message : String) (cid md : Option String)
    (hasDb : Bool) (env : PipelineEnv) (s : Session) :
    ∀ e, process_message message cid md hasDb env s = Except.error e →
      ∃ c, e = wrapErr c := by
  intro e h
  cases hrl : env.rateLimitOk <;>
    rcases he : env.embedResult with e1 | v <;>
      rcases hs2 : env.searchResult with e2 | ctx <;>
        rcases hg : env.generateResult (histUsed cid hasDb env) with e3 | gen <;>
          rcases hf2 : env.followupResult with e4 | fq <;>
            simp [process_message, hrl, he, hs2, hg, hf2] at h <;>
            exact ⟨_, h.symm⟩

/-- Helper: a failing history fetch makes `process_message` behave
exactly as if the conversation had no history. -/
theorem process_message_hist_suppressed (message : String) (cid md : Option String)
    (hasDb : Bool) (env : PipelineEnv) (s : Session) (e : String) :
    process_message message cid md hasDb { env with historyFetch := Except.error e } s =
      process_message message cid md hasDb { env with historyFetch := Except.ok [] } s := by
  have hh : histUsed cid hasDb { env with historyFetch := Except.error e } =
      histUsed cid hasDb { env with historyFetch := Except.ok [] } := by
    unfold histUsed
    cases cid.isSome && hasDb <;> simp
  simp only [process_message, hh]

/-- Helper: the save step never changes the payload: altering the
persistence outcome only alters the resulting session. -/
theorem process_message_save_suppressed (message : String) (cid md : Option String)
    (hasDb : Bool) (env : PipelineEnv) (s : Session) (f : SaveFailure) :
    (process_message message cid md hasDb { env with saveFail := f } s).map Prod.fst =
      (process_message message cid md hasDb
        { env with saveFail := SaveFailure.ok } s).map Prod.fst := by
  cases hrl : env.rateLimitOk <;>
    rcases he : env.embedResult with e1 | v <;>
      rcases hs2 : env.searchResult with e2 | ctx <;>
        rcases hg : env.generateResult (histUsed cid hasDb env) with e3 | gen <;>
          rcases hf2 : env.followupResult with e4 | fq <;>
            simp [process_message, histUsed, hrl, he, hs2, hg, hf2, Except.map] <;>
            simp [histUsed] at hg <;> simp [hg]

/-- C3, counterexample.  The claim says a failure while loading
conversation history makes `processMessage` fail with a wrapping error.
In the code the failure is caught inside `_get_conversation_history`
(which returns `[]`), so the turn still succeeds: with a history fetch
that raises "db down" and every other collaborator succeeding,
`process_message` returns the generated answer. -/
theorem C3_counterexample :
    ∃ p s2, process_message "q" (some "c1") none true envHistFails emptySession =
      Except.ok (p, s2) ∧ p.response = "answer" :=
  ⟨_, _, rfl, rfl⟩

/-- C3, amended.  A failure in embedding the query, vector search,
generating the response or generating follow-ups causes
`process_message` to fail with a single wrapping ChatError, and every
surfaced error is so wrapped; but BOTH a failure while loading
conversation history (caught inside `_get_conversation_history`,
treated as empty history) AND a failure in the persistence step are
suppressed: neither appears in the success condition, a failing history
fetch behaves exactly like an empty history, and the persistence
outcome never changes the returned payload. -/
theorem C3_amended (message : String) (cid md : Option String) (hasDb : Bool)
    (env : PipelineEnv) (s : Session) :
    ((∃ r, process_message message cid md hasDb env s = Except.ok r) ↔
      (env.rateLimitOk = true ∧ env.embedResult.isOk = true ∧
       env.searchResult.isOk = true ∧
       (env.generateResult (histUsed cid hasDb env)).isOk = true ∧
       env.followupResult.isOk = true)) ∧
    (∀ e, process_message message cid md hasDb env s = Except.error e →
      ∃ c, e = wrapErr c) ∧
    (∀ e, process_message message cid md hasDb
        { env with historyFetch := Except.error e } s =
      process_message message cid md hasDb
        { env with historyFetch := Except.ok [] } s) ∧
    (∀ f, (process_message message cid md hasDb { env with saveFail := f } s).map Prod.fst =
      (process_message message cid md hasDb
        { env with saveFail := SaveFailure.ok } s).map Prod.fst) :=
  ⟨process_message_ok_iff message cid md hasDb env s,
   process_message_err_wrapped message cid md hasDb env s,
   fun e => process_message_hist_suppressed message cid md hasDb env s e,
   fun f => process_message_save_suppressed message cid md hasDb env s f⟩

/-- C2, counterexample.  The claim says that when no conversationId is
supplied and persistence is enabled, the returned payload's
conversationId equals the id of the newly created conversation.  With
every collaborator succeeding and the database assigning the fresh id
"c-new", the turn persists conversation "c-new" but the payload's
conversationId is `none` — the new id is not propagated. -/
theorem C2_counterexample :
    ∃ p s2, process_message "hi" none none true envAllOk emptySession =
      Except.ok (p, s2) ∧
      s2.committed.conversations = ["c-new"] ∧
      p.conversation_id = none ∧ p.conversation_id ≠ some "c-new" := by
  refine ⟨_, _, rfl, rfl, rfl, by simp⟩

/-- C2, amended.  The conversationId field of the payload returned by a
successful `process_message` always equals the conversationId supplied
by the caller (`none` when absent); the identifier of a conversation
newly created during persistence is not reflected in the response. -/
theorem C2_amended (message : String) (cid md : Option String) (hasDb : Bool)
    (env : PipelineEnv) (s : Session) (p : ChatPayload) (s2 : Session)
    (h : process_message message cid md hasDb env s = Except.ok (p, s2)) :
    p.conversation_id = cid := by
  cases hrl : env.rateLimitOk <;>
    rcases he : env.embedResult with e1 | v <;>
      rcases hs2 : env.searchResult with e2 | ctx <;>
        rcases hg : env.generateResult (histUsed cid hasDb env) with e3 | gen <;>
          rcases hf2 : env.followupResult with e4 | fq <;>
            simp [process_message, hrl, he, hs2, hg, hf2, Prod.ext_iff] at h
  simp [← h.1]

/-- C2, amended, witness: a concrete successful turn with supplied
conversation id "c7" returns that same id in the payload. -/
theorem C2_amended_witness :
    ({ response := "answer", sources := [], followup_questions := [],
       conversation_id := some "c7", metadata := none } : ChatPayload).conversation_id =
      some "c7" :=
  C2_amended "hi" (some "c7") none true envAllOk emptySession _ _ rfl

/-- Helper: with enough fuel the slices concatenate back to the
original list (for a positive batch size). -/
theorem chunksOfGo_join {α : Type} (n : Nat) (hn : 1 ≤ n) :
    ∀ (fuel : Nat) (l : List α), l.length ≤ fuel →
      (chunksOfGo n fuel l).flatten = l := by
  intro fuel
  induction fuel with
  | zero =>
    intro l hl
    have hz : l = [] := List.eq_nil_of_length_eq_zero (Nat.le_zero.mp hl)
    subst hz
    rfl
  | succ fuel ih =>
    intro l hl
    cases l with
    | nil => rfl
    | cons a rest =>
      have htake : (a :: rest).take n = a :: rest.take (n - 1) := by
        obtain ⟨m, rfl⟩ : ∃ m, n = m + 1 := ⟨n - 1, by omega⟩
        simp
      have hlen : (rest.drop (n - 1)).length ≤ fuel := by
        simp only [List.length_cons] at hl
        simp only [List.length_drop]
        omega
      rw [chunksOfGo, List.flatten_cons, htake, ih _ hlen, List.cons_append,
        List.take_append_drop]

/-- Helper: the batches cover the input: concatenating the slices in
order gives back the original list (for a positive batch size). -/
theorem chunksOf_join {α : Type} (n : Nat) (hn : 1 ≤ n) (l : List α) :
    (chunksOf n l).flatten = l :=
  chunksOfGo_join n hn l.length l le_rfl

/-- Helper: every slice produced by the slicing recursion has at most
`n` elements. -/
theorem chunksOfGo_length_le {α : Type} (n : Nat) :
    ∀ (fuel : Nat) (l : List α), ∀ b ∈ chunksOfGo n fuel l, b.length ≤ n := by
  intro fuel
  induction fuel with
  | zero =>
    intro l b hb
    simp [chunksOfGo] at hb
  | succ fuel ih =>
    intro l b hb
    cases l with
    | nil => simp [chunksOfGo] at hb
    | cons a rest =>
      rw [chunksOfGo] at hb
      rcases List.mem_cons.mp hb with rfl | h2
      · exact le_trans (List.length_take_le n (a :: rest)) le_rfl
      · exact ih _ b h2

/-- Helper: every batch produced by the batching loop has at most `n`
elements. -/
theorem chunksOf_length_le {α : Type} (n : Nat) (l : List α) :
    ∀ b ∈ chunksOf n l, b.length ≤ n :=
  chunksOfGo_length_le n l.length l

/-- Helper: a single provider call succeeds in the wrapped
`_process_batch` exactly when the provider succeeds with that value. -/
theorem process_batch_ok {V : Type} (encode : List String → Except String (List V))
    (b : List String) (w : List V) :
    process_batch encode b = Except.ok w ↔ encode b = Except.ok w := by
  unfold process_batch
  rcases h : encode b with e | vs <;> simp

/-- Helper: the embedding loop succeeds exactly when every batch
succeeds, and then its value is the in-order concatenation of the
per-batch results. -/
theorem embedBatches_ok_iff {V : Type} (encode : List String → Except String (List V)) :
    ∀ (bs : List (List String)) (vs : List V),
      embedBatches encode bs = Except.ok vs ↔
        ∃ ws : List (List V),
          List.Forall₂ (fun b w => encode b = Except.ok w) bs ws ∧ vs = ws.flatten := by
  intro bs
  induction bs with
  | nil =>
    intro vs
    simp only [embedBatches, Except.ok.injEq, List.forall₂_nil_left_iff]
    constructor
    · rintro rfl; exact ⟨[], rfl, rfl⟩
    · rintro ⟨ws, rfl, rfl⟩; rfl
  | cons b bs ih =>
    intro vs
    constructor
    · intro h
      rw [embedBatches] at h
      rcases hpb : process_batch encode b with e | w <;> rw [hpb] at h
      · exact absurd h (by simp)
      rcases hrest : embedBatches encode bs with e | rest <;> rw [hrest] at h
      · exact absurd h (by simp)
      obtain ⟨ws, hws, hj⟩ := (ih rest).mp hrest
      refine ⟨w :: ws, List.Forall₂.cons ((process_batch_ok encode b w).mp hpb) hws, ?_⟩
      rw [List.flatten_cons, ← hj]
      exact (Except.ok.inj h).symm
    · rintro ⟨ws, hfa, rfl⟩
      cases hfa with
      | cons hb htail =>
        rw [embedBatches, (process_batch_ok encode b _).mpr hb,
          (ih _).mpr ⟨_, htail, rfl⟩]
        rfl

/-- Helper: pointwise length preservation transports along the batch
relation to the concatenations. -/
theorem forall₂_flatten_length {V : Type} (encode : List String → Except String (List V))
    (hlen : ∀ b vs, encode b = Except.ok vs → vs.length = b.length) :
    ∀ (bs : List (List String)) (ws : List (List V)),
      List.Forall₂ (fun b w => encode b = Except.ok w) bs ws →
        ws.flatten.length = bs.flatten.length := by
  intro bs ws h
  induction h with
  | nil => rfl
  | cons hb _ ih => simp [List.flatten_cons, ih, hlen _ _ hb]

/-- Helper: the batch relation provides an image for every member of
the left list. -/
theorem forall₂_mem_left {α β : Type} {R : α → β → Prop} :
    ∀ {l1 : List α} {l2 : List β}, List.Forall₂ R l1 l2 → ∀ a ∈ l1, ∃ b, R a b := by
  intro l1 l2 h
  induction h with
  | nil => simp
  | cons hab _ ih =>
    intro a ha
    rcases List.mem_cons.mp ha with rfl | h2
    · exact ⟨_, hab⟩
    · exact ih a h2

/-- C5: `generate_embeddings` partitions the input into consecutive
batches of at most 20 texts covering the whole input; when it succeeds,
its value is the in-order concatenation of one provider result per
batch and (for a one-to-one provider) has exactly one vector per input
text; and a failure of any batch aborts the whole call with an error,
so no partial result is ever returned. -/
theorem C5_confirmed {V : Type} (encode : List String → Except String (List V))
    (texts : List String)
    (hlen : ∀ b vs, encode b = Except.ok vs → vs.length = b.length) :
    ((chunksOf 20 texts).flatten = texts ∧ ∀ b ∈ chunksOf 20 texts, b.length ≤ 20) ∧
    (∀ vs, generate_embeddings encode texts = Except.ok vs →
      ∃ ws : List (List V),
        List.Forall₂ (fun b w => encode b = Except.ok w) (chunksOf 20 texts) ws ∧
        vs = ws.flatten ∧ vs.length = texts.length) ∧
    (∀ b e, b ∈ chunksOf 20 texts → encode b = Except.error e →
      ∃ e2, generate_embeddings encode texts = Except.error e2) := by
  have hok : ∀ vs, generate_embeddings encode texts = Except.ok vs →
      ∃ ws : List (List V),
        List.Forall₂ (fun b w => encode b = Except.ok w) (chunksOf 20 texts) ws ∧
        vs = ws.flatten ∧ vs.length = texts.length := by
    intro vs h
    unfold generate_embeddings at h
    rcases hb : embedBatches encode (chunksOf 20 texts) with e | vs2 <;> rw [hb] at h
    · exact absurd h (by simp)
    obtain ⟨ws, hfa, hj⟩ := (embedBatches_ok_iff encode _ vs2).mp hb
    obtain rfl : vs2 = vs := Except.ok.inj h
    refine ⟨ws, hfa, hj, ?_⟩
    rw [hj, forall₂_flatten_length encode hlen _ _ hfa, chunksOf_join 20 (by omega) texts]
  refine ⟨⟨chunksOf_join 20 (by omega) texts, chunksOf_length_le 20 texts⟩, hok, ?_⟩
  intro b e hmem henc
  rcases hg : generate_embeddings encode texts with e2 | vs
  · exact ⟨e2, rfl⟩
  exfalso
  obtain ⟨ws, hfa, _, _⟩ := hok vs hg
  obtain ⟨w, hw⟩ := forall₂_mem_left hfa b hmem
  rw [henc] at hw
  exact absurd hw (by simp)

/-- C5, witness: the well-behaved constant provider on the two-text
input ["a", "b"]. -/
theorem C5_witness :
    (((chunksOf 20 ["a", "b"]).flatten = ["a", "b"] ∧
      ∀ b ∈ chunksOf 20 ["a", "b"], b.length ≤ 20) ∧
    (∀ vs, generate_embeddings constEncode ["a", "b"] = Except.ok vs →
      ∃ ws : List (List Nat),
        List.Forall₂ (fun b w => constEncode b = Except.ok w) (chunksOf 20 ["a", "b"]) ws ∧
        vs = ws.flatten ∧ vs.length = (["a", "b"] : List String).length) ∧
    (∀ b e, b ∈ chunksOf 20 ["a", "b"] → constEncode b = Except.error e →
      ∃ e2, generate_embeddings constEncode ["a", "b"] = Except.error e2)) :=
  C5_confirmed constEncode ["a", "b"] (by
    intro b vs h
    simp only [constEncode, Except.ok.injEq] at h
    rw [← h, List.length_map])

/-- Helper: the metadata-attachment loop emits exactly one chunk per
input span, with `chunk_index` enumerating 0,1,... in source order,
constant `total_chunks`, and the original texts. -/
theorem attach_metadata_spec (sourceName suffix : String) (chunks : List String) :
    (attach_metadata sourceName suffix chunks).length = chunks.length ∧
    (∀ c ∈ attach_metadata sourceName suffix chunks, c.total_chunks = chunks.length) ∧
    (attach_metadata sourceName suffix chunks).map (fun c => c.chunk_index) =
      List.range chunks.length ∧
    (attach_metadata sourceName suffix chunks).map (fun c => c.text) = chunks := by
  refine ⟨?_, ?_, ?_, ?_⟩
  · simp [attach_metadata]
  · intro c hc
    simp only [attach_metadata, List.mem_map] at hc
    obtain ⟨p, _, rfl⟩ := hc
    rfl
  · unfold attach_metadata
    rw [List.map_map]
    exact List.enum_map_fst chunks
  · unfold attach_metadata
    rw [List.map_map]
    exact List.enum_map_snd chunks

/-- C6: whenever `process_document` succeeds, every emitted chunk
carries `total_chunks` equal to the number of chunks produced, the
`chunk_index` values are exactly 0 .. total_chunks-1 in source document
order, and the chunk texts are the split result in order. -/
theorem C6_confirmed (fileExists : Bool) (sourceName suffix : String)
    (loadAndSplit : Except String (List String)) (out : List ProcessedChunk)
    (h : process_document fileExists sourceName suffix loadAndSplit = Except.ok out) :
    (∀ c ∈ out, c.total_chunks = out.length) ∧
    out.map (fun c => c.chunk_index) = List.range out.length ∧
    ∀ chunks, loadAndSplit = Except.ok chunks →
      out.map (fun c => c.text) = chunks := by
  unfold process_document at h
  split at h
  · exact absurd h (by simp)
  split at h
  · exact absurd h (by simp)
  rcases hls : loadAndSplit with e | chunks <;> rw [hls] at h
  · exact absurd h (by simp)
  obtain rfl : attach_metadata sourceName suffix chunks = out := Except.ok.inj h
  obtain ⟨hlen2, htot, hidx, htext⟩ := attach_metadata_spec sourceName suffix chunks
  rw [← hlen2] at htot hidx
  refine ⟨htot, hidx, ?_⟩
  intro chunks2 h2
  obtain rfl : chunks = chunks2 := Except.ok.inj h2
  exact htext

/-- C6, witness: processing a text file that splits into the two spans
["alpha", "beta"]. -/
theorem C6_witness :
    (∀ c ∈ attach_metadata "doc.txt" ".txt" ["alpha", "beta"],
      c.total_chunks = (attach_metadata "doc.txt" ".txt" ["alpha", "beta"]).length) ∧
    (attach_metadata "doc.txt" ".txt" ["alpha", "beta"]).map (fun c => c.chunk_index) =
      List.range (attach_metadata "doc.txt" ".txt" ["alpha", "beta"]).length ∧
    ∀ chunks, (Except.ok ["alpha", "beta"] : Except String (List String)) =
        Except.ok chunks →
      (attach_metadata "doc.txt" ".txt" ["alpha", "beta"]).map (fun c => c.text) =
        chunks :=
  C6_confirmed true "doc.txt" ".txt" (Except.ok ["alpha", "beta"]) _ rfl

/-- C7: `generate_response` returns as sources a subselection of the
retrieved documents in retrieval order (a sublist), containing exactly
those whose similarity score exceeds the fixed 0.7 threshold, while the
prompt sent to the LLM contains the context block built from ALL
retrieved documents regardless of score; in particular for retrieved
scores [0.9, 0.75, 0.5] the sources are exactly the first two. -/
theorem C7_confirmed (llm : List PromptMsg → String) (query : String)
    (context : List ContextDoc) (history : List HistoryEntry) :
    ((generate_response llm query context history).2.sources.Sublist context) ∧
    (∀ d ∈ (generate_response llm query context history).2.sources,
      (7 : Rat)/10 < d.score) ∧
    (∀ d ∈ context, (7 : Rat)/10 < d.score →
      d ∈ (generate_response llm query context history).2.sources) ∧
    (PromptMsg.system ("Context for the current question:\n" ++ context_str context) ∈
      (generate_response llm query context history).1) ∧
    ((generate_response llm query
        [⟨"d1", 9/10⟩, ⟨"d2", 3/4⟩, ⟨"d3", 1/2⟩] history).2.sources =
      [⟨"d1", 9/10⟩, ⟨"d2", 3/4⟩]) := by
  refine ⟨List.filter_sublist context, ?_, ?_, ?_, ?_⟩
  · intro d hd
    simp only [generate_response, List.mem_filter, decide_eq_true_eq] at hd
    exact hd.2
  · intro d hd hscore
    simp only [generate_response, List.mem_filter, decide_eq_true_eq]
    exact ⟨hd, hscore⟩
  · simp [generate_response, build_messages]
  · simp only [generate_response]
    norm_num [List.filter]

/-- Helper: the ids of the vectors built in one attempt are the uuid
stream applied positionally: one fresh id per chunk. -/
theorem buildVecs_ids (uuids : Nat → String) (chunks : List ChunkIn) :
    (buildVecs uuids chunks).map VecRec.id = (List.range chunks.length).map uuids := by
  unfold buildVecs
  rw [List.map_map]
  have h1 : (VecRec.id ∘ fun p : Nat × ChunkIn =>
      ({ id := uuids p.1, values := p.2.embedding, text := p.2.text } : VecRec)) =
      (uuids ∘ Prod.fst) := rfl
  rw [h1, ← List.map_map, List.enum_map_fst]

/-- C8, counterexample.  The claim says a provider that always fails
causes exactly 3 attempts followed by a VectorStoreError.  The attempt
count is right, but the decorator (tenacity, no `reraise`) raises a
RetryError wrapping the last VectorStoreError — the surfaced error is
not a VectorStoreError. -/
theorem C8_counterexample :
    store_embeddings (fun _ i => toString i) (fun _ _ => Except.error "boom")
        [⟨"t", []⟩] =
      (Except.error (StoreErr.retryExhausted
        (StoreErr.vectorStoreError "Vector storage failed: boom")), 3) ∧
    ∀ m, (store_embeddings (fun _ i => toString i) (fun _ _ => Except.error "boom")
        [⟨"t", []⟩]).1 ≠ Except.error (StoreErr.vectorStoreError m) := by
  have hval : store_embeddings (fun _ i => toString i) (fun _ _ => Except.error "boom")
      [⟨"t", []⟩] =
    (Except.error (StoreErr.retryExhausted
      (StoreErr.vectorStoreError "Vector storage failed: boom")), 3) := rfl
  refine ⟨hval, ?_⟩
  intro m h
  rw [hval] at h
  simp at h

/-- C8, amended.  `store_embeddings` retries with bounded exponential
backoff and at most 3 attempts: a provider failing on attempts 1 and 2
and succeeding on attempt 3 makes the call succeed after exactly 3
attempts; a provider that always fails causes exactly 3 attempts
followed by a RetryError (tenacity retry-exhausted error) wrapping the
final VectorStoreError — not a bare VectorStoreError.  Each attempt
submits the vectors in consecutive batches of at most 100 covering all
of them, and assigns one fresh id per item (pairwise distinct for an
injective uuid stream), returning exactly that id list on success.
The backoff delay is the exponential `2 ^ k` clamped between 4 and
10 seconds. -/
theorem C8_amended (uuidsAt : Nat → Nat → String)
    (upsertAt : Nat → List VecRec → Except String Unit) (chunks : List ChunkIn) :
    (∀ ids,
      (∃ e1, attempt_store (uuidsAt 1) (upsertAt 1) chunks = Except.error e1) →
      (∃ e2, attempt_store (uuidsAt 2) (upsertAt 2) chunks = Except.error e2) →
      attempt_store (uuidsAt 3) (upsertAt 3) chunks = Except.ok ids →
      store_embeddings uuidsAt upsertAt chunks = (Except.ok ids, 3)) ∧
    (∀ e3,
      (∃ e1, attempt_store (uuidsAt 1) (upsertAt 1) chunks = Except.error e1) →
      (∃ e2, attempt_store (uuidsAt 2) (upsertAt 2) chunks = Except.error e2) →
      attempt_store (uuidsAt 3) (upsertAt 3) chunks = Except.error e3 →
      store_embeddings uuidsAt upsertAt chunks =
        (Except.error (StoreErr.retryExhausted e3), 3)) ∧
    (∀ a ids, attempt_store (uuidsAt a) (upsertAt a) chunks = Except.ok ids →
      ids = (List.range chunks.length).map (uuidsAt a)) ∧
    (∀ a, ∀ b ∈ chunksOf 100 (buildVecs (uuidsAt a) chunks), b.length ≤ 100) ∧
    (∀ a, (chunksOf 100 (buildVecs (uuidsAt a) chunks)).flatten =
      buildVecs (uuidsAt a) chunks) ∧
    (∀ a, Function.Injective (uuidsAt a) →
      ((List.range chunks.length).map (uuidsAt a)).Nodup) ∧
    (∀ k, 4 ≤ wait_exponential 1 4 10 k ∧ wait_exponential 1 4 10 k ≤ 10) := by
  refine ⟨?_, ?_, ?_, ?_, ?_, ?_, ?_⟩
  · rintro ids ⟨e1, h1⟩ ⟨e2, h2⟩ h3
    simp [store_embeddings, retryRun, h1, h2, h3]
  · rintro e3 ⟨e1, h1⟩ ⟨e2, h2⟩ h3
    simp [store_embeddings, retryRun, h1, h2, h3]
  · intro a ids h
    simp only [attempt_store] at h
    rcases hu : upsertAll (upsertAt a) (chunksOf 100 (buildVecs (uuidsAt a) chunks))
        with e | u <;> rw [hu] at h
    · exact absurd h (by simp)
    · rw [← buildVecs_ids (uuidsAt a) chunks]
      exact (Except.ok.inj h).symm
  · intro a
    exact chunksOf_length_le 100 (buildVecs (uuidsAt a) chunks)
  · intro a
    exact chunksOf_join 100 (by omega) (buildVecs (uuidsAt a) chunks)
  · intro a hinj
    exact List.Nodup.map hinj (List.nodup_range _)
  · intro k
    exact ⟨le_min (by norm_num) (le_max_left _ _), min_le_left _ _⟩

/-- C9: the code's pruning is broken.  The spec says the window is
pruned of all entries older than the window length on every request,
so a request made after the window elapses is accepted.  Because the
code tests `timedelta.seconds` (the duration modulo one day) instead of
the total duration, entries exactly one day old are treated as fresh:
after ten accepted requests at time 0, the request at time 86400
(24 hours later, far beyond the 60-second window) finds all ten stale
entries still in the pruned list — each 86400 seconds old, well over
the window — and is rejected. -/
theorem C9_code_bug :
    (∀ k < 10,
      (check_rate_limit (runRateLimit 10 60 (List.replicate k 0)) 0 10 60).1 = true) ∧
    runRateLimit 10 60 (List.replicate 10 0) = List.replicate 10 0 ∧
    (∀ t ∈ runRateLimit 10 60 (List.replicate 10 0), 60 < 86400 - t) ∧
    (check_rate_limit (runRateLimit 10 60 (List.replicate 10 0)) 86400 10 60).1 =
      false := by
  decide

/-- Helper: when the limiter rejects, the stored list is exactly the
pruned list — no timestamp is recorded. -/
theorem check_rate_limit_reject (ts : List Nat) (now limit window : Nat)
    (h : (check_rate_limit ts now limit window).1 = false) :
    (check_rate_limit ts now limit window).2 = pruneTimestamps now window ts := by
  by_cases hc : limit ≤ (pruneTimestamps now window ts).length
  · simp [check_rate_limit, hc]
  · simp [check_rate_limit, hc] at h

/-- Helper: one check keeps the stored list at or below the limit. -/
theorem check_rate_limit_length {ts : List Nat} {now limit window : Nat}
    (h : ts.length ≤ limit) :
    ((check_rate_limit ts now limit window).2).length ≤ limit := by
  by_cases hc : limit ≤ (pruneTimestamps now window ts).length
  · simp only [check_rate_limit, hc, if_true]
    exact le_trans (List.length_filter_le _ ts) h
  · simp only [check_rate_limit, hc, if_false, List.length_append,
      List.length_singleton]
    omega

/-- Helper: any fold of checks preserves the length bound. -/
theorem runRateLimit_aux (limit window : Nat) :
    ∀ (reqs ts : List Nat), ts.length ≤ limit →
      (reqs.foldl (fun ts now => (check_rate_limit ts now limit window).2) ts).length ≤
        limit := by
  intro reqs
  induction reqs with
  | nil => intro ts h; exact h
  | cons r rs ih =>
    intro ts h
    exact ih _ (check_rate_limit_length h)

/-- C10: a rejected request records no timestamp — on rejection the
stored list is exactly the pruned list, a sublist of the previous one —
and consequently, starting from an empty window, the stored list never
exceeds the limit (10) after any sequence of checks. -/
theorem C10_confirmed :
    (∀ (ts : List Nat) (now limit window : Nat),
      (check_rate_limit ts now limit window).1 = false →
        (check_rate_limit ts now limit window).2 = pruneTimestamps now window ts ∧
        (check_rate_limit ts now limit window).2.Sublist ts) ∧
    (∀ reqs : List Nat, (runRateLimit 10 60 reqs).length ≤ 10) := by
  constructor
  · intro ts now limit window h
    refine ⟨check_rate_limit_reject ts now limit window h, ?_⟩
    rw [check_rate_limit_reject ts now limit window h]
    exact List.filter_sublist ts
  · intro reqs
    exact runRateLimit_aux 10 60 reqs [] (by simp)

end RAGChat
